import Mathlib

/-!
Verification development for the AppService operator.

The definitions below are a shallow embedding of the Go sources:
- `api/v1alpha1/appservice_types.go` (the AppService record and its status),
- the AppService controller (`Reconcile`, `deploymentForAppService`,
  `serviceForAppService`, `updateCondition`, `cleanupResources`),
- the reconciler utilities (`GetObject`, `CreateOrUpdate`).

The external control-plane store is modelled as a `Cluster` record holding at
most one AppService, one Deployment and one Service for the reconciled key;
reconcile passes additionally record a trace of the store operations they
perform, so that frame properties ("no endpoint write occurs") can be stated.
Machine `int32` fields are modelled as `Int`; timestamps (`metav1.Now()`) are
modelled as a `Nat` parameter `now` supplied to each pass.
-/

/-- `metav1.ConditionStatus` (`ConditionTrue` / `ConditionFalse` / `ConditionUnknown`). -/
inductive ConditionStatus where
  | ConditionTrue
  | ConditionFalse
  | ConditionUnknown
deriving DecidableEq, Repr

/-- `metav1.Condition`, with the timestamp modelled as a `Nat`. -/
structure Condition where
  type : String
  status : ConditionStatus
  reason : String
  message : String
  lastTransitionTime : Nat
deriving DecidableEq, Repr

/-- `v1alpha1.ResourceRequirements` (the CRD's cpu/memory hints). -/
structure ResourceRequirements where
  cpu : String := ""
  memory : String := ""
deriving DecidableEq, Repr

/-- `v1alpha1.AppServiceSpec`. The Go `map[string]string` environment is
modelled as an association list. -/
structure AppServiceSpec where
  replicas : Int
  image : String
  port : Int
  environment : List (String × String) := []
  resources : ResourceRequirements := {}
deriving DecidableEq, Repr

/-- `v1alpha1.AppServiceStatus`. -/
structure AppServiceStatus where
  phase : String := ""
  availableReplicas : Int := 0
  conditions : List Condition := []
  lastReconcileTime : Nat := 0
deriving DecidableEq, Repr

/-- `v1alpha1.AppService`. `deletionTimestampIsZero` models
`ObjectMeta.DeletionTimestamp.IsZero()`; `finalizers` models
`ObjectMeta.Finalizers`. -/
structure AppService where
  name : String
  namespaceName : String
  deletionTimestampIsZero : Bool := true
  finalizers : List String := []
  spec : AppServiceSpec
  status : AppServiceStatus := {}
deriving DecidableEq, Repr

/-- `corev1.EnvVar`. -/
structure EnvVar where
  name : String
  value : String
deriving DecidableEq, Repr

/-- `corev1.ResourceRequirements`: requests and limits, each a resource list
(modelled as an association list of name/quantity strings). -/
structure CoreV1ResourceRequirements where
  requests : List (String × String)
  limits : List (String × String)
deriving DecidableEq, Repr

/-- `corev1.Container` (the fields the controller sets). `resources` is an
`Option`: `none` models the Go zero value, i.e. no resource-requirements
object having been assigned. -/
structure Container where
  name : String
  image : String
  ports : List Int
  env : List EnvVar := []
  resources : Option CoreV1ResourceRequirements := none
deriving DecidableEq, Repr

/-- The pod template of a Deployment: labels plus containers. -/
structure PodTemplateSpec where
  labels : List (String × String)
  containers : List Container
deriving DecidableEq, Repr

/-- `appsv1.DeploymentSpec` (the fields the controller reads or writes). -/
structure DeploymentSpec where
  replicas : Int
  selectorMatchLabels : List (String × String)
  template : PodTemplateSpec
deriving DecidableEq, Repr

/-- `appsv1.DeploymentStatus` (the field the controller reads). -/
structure DeploymentStatus where
  availableReplicas : Int := 0
deriving DecidableEq, Repr

/-- `appsv1.Deployment`. `ownerName` models the controller reference set by
`controllerutil.SetControllerReference`. -/
structure Deployment where
  name : String
  namespaceName : String
  spec : DeploymentSpec
  status : DeploymentStatus := {}
  ownerName : String := ""
deriving DecidableEq, Repr

/-- `corev1.ServicePort` (the fields the controller sets). -/
structure ServicePort where
  port : Int
  targetPort : Int
deriving DecidableEq, Repr

/-- `corev1.Service` (the fields the controller sets). -/
structure Service where
  name : String
  namespaceName : String
  selector : List (String × String)
  ports : List ServicePort
  type : String
  ownerName : String := ""
deriving DecidableEq, Repr

/-- The finalizer token `"example.com/finalizer"` used by the controller. -/
def finalizerName : String := "example.com/finalizer"

/-- `controllerutil.ContainsFinalizer`. -/
def containsFinalizer (app : AppService) (f : String) : Bool :=
  app.finalizers.contains f

/-- `controllerutil.AddFinalizer`: appends the token. -/
def addFinalizer (app : AppService) (f : String) : AppService :=
  { app with finalizers := app.finalizers ++ [f] }

/-- `controllerutil.RemoveFinalizer`: drops every occurrence of the token. -/
def removeFinalizer (app : AppService) (f : String) : AppService :=
  { app with finalizers := app.finalizers.filter (fun x => x != f) }

/-- The loop body of `AppServiceReconciler.updateCondition`: scan for the first
condition with the given type; if found, replace it when the status differs
(otherwise leave it and everything after untouched) and stop; if no condition
of that type exists, append the new condition at the end. -/
def insertCond : List Condition → Condition → List Condition
  | [], cond => [cond]
  | c :: rest, cond =>
    if c.type = cond.type then
      (if c.status ≠ cond.status then cond else c) :: rest
    else
      c :: insertCond rest cond

/-- `AppServiceReconciler.updateCondition`: builds the condition stamped with
`lastTransitionTime = now` and runs the scan/replace/append loop. -/
def updateCondition (conds : List Condition) (condType : String)
    (status : ConditionStatus) (reason message : String) (now : Nat) :
    List Condition :=
  insertCond conds
    { type := condType, status := status, reason := reason, message := message,
      lastTransitionTime := now }

/-- `AppServiceReconciler.deploymentForAppService`: synthesizes the Deployment
from the record. Environment is copied when non-empty; the resources object is
assigned (with empty requests and limits) exactly when one of the cpu/memory
hints is non-empty. -/
def deploymentForAppService (app : AppService) : Deployment :=
  let labels := [("app", app.name)]
  let replicas := app.spec.replicas
  let container0 : Container :=
    { name := app.name, image := app.spec.image, ports := [app.spec.port] }
  let container1 :=
    if app.spec.environment.length > 0 then
      { container0 with
        env := app.spec.environment.map (fun kv => EnvVar.mk kv.1 kv.2) }
    else container0
  let container2 :=
    if app.spec.resources.cpu != "" || app.spec.resources.memory != "" then
      { container1 with
        resources := some { requests := [], limits := [] } }
    else container1
  { name := app.name
    namespaceName := app.namespaceName
    spec :=
      { replicas := replicas
        selectorMatchLabels := labels
        template := { labels := labels, containers := [container2] } }
    ownerName := app.name }

/-- `AppServiceReconciler.serviceForAppService`: synthesizes the ClusterIP
Service from the record. -/
def serviceForAppService (app : AppService) : Service :=
  let labels := [("app", app.name)]
  { name := app.name
    namespaceName := app.namespaceName
    selector := labels
    ports := [{ port := app.spec.port, targetPort := app.spec.port }]
    type := "ClusterIP"
    ownerName := app.name }

/-- The control-plane store for one reconciled key: at most one AppService,
Deployment and Service. -/
structure Cluster where
  appService : Option AppService
  deployment : Option Deployment
  service : Option Service
deriving DecidableEq, Repr

/-- `ctrl.Result`: `requeueAfter = 0` models an unset `RequeueAfter`. -/
structure CtrlResult where
  requeue : Bool := false
  requeueAfter : Nat := 0
deriving DecidableEq, Repr

/-- Store operations a reconcile pass performs, recorded as a trace. -/
inductive Op where
  | getAppService
  | updateAppService (a : AppService)
  | cleanupResources
  | getDeployment
  | createDeployment (d : Deployment)
  | updateDeployment (d : Deployment)
  | getService
  | createService (s : Service)
  | statusUpdate (a : AppService)
deriving DecidableEq, Repr

/-- Final stage of `Reconcile`: copy the Deployment's available replicas and
the timestamp into the status, set phase `"Running"`/`"Pending"` and the
`"Ready"` condition, then issue the status update. Returns with a 30-unit
delayed requeue. -/
def statusStage (c : Cluster) (appService : AppService)
    (deployment : Deployment) (now : Nat) (ops : List Op) :
    Cluster × CtrlResult × List Op :=
  let app1 :=
    { appService with
      status :=
        { appService.status with
          availableReplicas := deployment.status.availableReplicas
          lastReconcileTime := now } }
  let app2 :=
    if deployment.status.availableReplicas = appService.spec.replicas then
      { app1 with
        status :=
          { app1.status with
            phase := "Running"
            conditions :=
              updateCondition app1.status.conditions "Ready"
                ConditionStatus.ConditionTrue "DeploymentReady"
                "All replicas are available" now } }
    else
      { app1 with
        status :=
          { app1.status with
            phase := "Pending"
            conditions :=
              updateCondition app1.status.conditions "Ready"
                ConditionStatus.ConditionFalse "DeploymentNotReady"
                "Waiting for replicas" now } }
  ({ c with appService := some app2 }, { requeueAfter := 30 },
    ops ++ [Op.statusUpdate app2])

/-- Service stage of `Reconcile`: fetch the Service; if absent, create it and
return with immediate requeue; if present, proceed to the status stage. -/
def serviceStage (c : Cluster) (appService : AppService)
    (deployment : Deployment) (now : Nat) (ops : List Op) :
    Cluster × CtrlResult × List Op :=
  match c.service with
  | none =>
    let svc := serviceForAppService appService
    ({ c with service := some svc }, { requeue := true },
      ops ++ [Op.getService, Op.createService svc])
  | some _ => statusStage c appService deployment now (ops ++ [Op.getService])

/-- Deployment stage of `Reconcile`: fetch the Deployment; if absent, create
it and return with immediate requeue; if its replica count differs from the
record's, write only the replica field back and return with immediate requeue;
otherwise proceed to the service stage. -/
def deploymentStage (c : Cluster) (appService : AppService) (now : Nat)
    (ops : List Op) : Cluster × CtrlResult × List Op :=
  match c.deployment with
  | none =>
    let dep := deploymentForAppService appService
    ({ c with deployment := some dep }, { requeue := true },
      ops ++ [Op.getDeployment, Op.createDeployment dep])
  | some deployment =>
    if deployment.spec.replicas ≠ appService.spec.replicas then
      let dep1 :=
        { deployment with
          spec := { deployment.spec with replicas := appService.spec.replicas } }
      ({ c with deployment := some dep1 }, { requeue := true },
        ops ++ [Op.getDeployment, Op.updateDeployment dep1])
    else
      serviceStage c appService deployment now (ops ++ [Op.getDeployment])

/-- `AppServiceReconciler.Reconcile` over the `Cluster` store, returning the
new store, the `ctrl.Result`, and the trace of store operations. Under this
total store no accessor call fails, so the error return of the Go function is
always nil and is omitted. Note that after adding the finalizer and persisting
the record the Go code falls through to the Deployment stage in the same pass
(there is no early return), and the deletion branch with the finalizer present
runs `cleanupResources`, removes the finalizer, persists, and returns the zero
result. -/
def Reconcile (c : Cluster) (now : Nat) : Cluster × CtrlResult × List Op :=
  match c.appService with
  | none => (c, {}, [Op.getAppService])
  | some appService =>
    if appService.deletionTimestampIsZero then
      if containsFinalizer appService finalizerName then
        deploymentStage c appService now [Op.getAppService]
      else
        let a := addFinalizer appService finalizerName
        deploymentStage { c with appService := some a } a now
          [Op.getAppService, Op.updateAppService a]
    else
      if containsFinalizer appService finalizerName then
        let a := removeFinalizer appService finalizerName
        ({ c with appService := some a }, {},
          [Op.getAppService, Op.cleanupResources, Op.updateAppService a])
      else
        (c, {}, [Op.getAppService])

/-! ## Reconciler utilities (`BaseReconciler`) -/

/-- Errors the store can report. `notFound` models `errors.IsNotFound`;
`conflict` models an optimistic-concurrency rejection. -/
inductive K8sError where
  | notFound
  | conflict
deriving DecidableEq, Repr

/-- `errors.IsNotFound`. -/
def IsNotFound : K8sError → Bool
  | K8sError.notFound => true
  | _ => false

/-- Lookup by key in a keyed store modelled as an association list. -/
def lookupStore {α : Type} (s : List (String × α)) (k : String) : Option α :=
  (s.find? (fun e => e.1 == k)).map (fun e => e.2)

/-- `client.Get`: fills the caller's object on success, reports `notFound`
when the key is absent. -/
def clientGet {α : Type} (s : List (String × α)) (k : String) :
    Except K8sError α :=
  match lookupStore s k with
  | some v => Except.ok v
  | none => Except.error K8sError.notFound

/-- `BaseReconciler.GetObject`: calls `client.Get`; a `notFound` error is
swallowed (nil error, caller's object untouched); any other error is
returned; on success the fetched value is written into the caller's object.
The pair returned models (error, state of the caller's object afterwards). -/
def GetObject {α : Type} (s : List (String × α)) (key : String) (obj : α) :
    Option K8sError × α :=
  match clientGet s key with
  | Except.error e => if IsNotFound e then (none, obj) else (some e, obj)
  | Except.ok v => (none, v)

/-- An object held in the versioned store used by `CreateOrUpdate`:
`resourceVersion` is the optimistic-concurrency stamp, `payload` stands for
all remaining object data. -/
structure StoredObject where
  key : String
  resourceVersion : Nat
  payload : String
deriving DecidableEq, Repr

/-- `client.Get` against the versioned store. -/
def storeGet (s : List StoredObject) (k : String) :
    Except K8sError StoredObject :=
  match s.find? (fun o => o.key == k) with
  | some o => Except.ok o
  | none => Except.error K8sError.notFound

/-- `client.Create` against the versioned store: the collaborator assigns the
initial version stamp. -/
def storeCreate (s : List StoredObject) (o : StoredObject) :
    Except K8sError (List StoredObject) :=
  Except.ok (s ++ [{ o with resourceVersion := 1 }])

/-- `client.Update` against the versioned store, with the collaborator's
optimistic-concurrency contract (spec section 4.1/6): absent key is
`notFound`; a version stamp differing from the stored one is rejected with
`conflict` and the store is left unchanged; on a matching stamp the object is
stored with a bumped stamp. -/
def storeUpdate (s : List StoredObject) (o : StoredObject) :
    Except K8sError (List StoredObject) :=
  match s.find? (fun e => e.key == o.key) with
  | none => Except.error K8sError.notFound
  | some existing =>
    if existing.resourceVersion = o.resourceVersion then
      Except.ok (s.map (fun e =>
        if e.key == o.key then { o with resourceVersion := o.resourceVersion + 1 }
        else e))
    else Except.error K8sError.conflict

/-- `BaseReconciler.CreateOrUpdate`, with the store state at read time
(`sRead`) distinguished from the store state at write time (`sWrite`) so that
a concurrent writer between the read and the write can be expressed: fetch
the existing object by the object's key; if absent, create; on any other
fetch error, return it; if present, set the existing object's resource
version onto the new object and issue the update. -/
def CreateOrUpdateRace (sRead sWrite : List StoredObject)
    (obj : StoredObject) : Except K8sError (List StoredObject) :=
  match storeGet sRead obj.key with
  | Except.error e =>
    if IsNotFound e then storeCreate sWrite obj else Except.error e
  | Except.ok existing =>
    storeUpdate sWrite { obj with resourceVersion := existing.resourceVersion }

/-- `BaseReconciler.CreateOrUpdate` in a quiescent store (no concurrent
writer): read and write see the same store state. -/
def CreateOrUpdate (s : List StoredObject) (obj : StoredObject) :
    Except K8sError (List StoredObject) :=
  CreateOrUpdateRace s s obj

/-! ## Condition-tracker helpers and lemmas -/

/-- First condition with the given type, as scanned by `updateCondition`. -/
def findCond (conds : List Condition) (t : String) : Option Condition :=
  conds.find? (fun c => c.type == t)

/-- At most one condition per type: the list of types has no duplicates. -/
def uniqueTypes (conds : List Condition) : Prop :=
  (conds.map Condition.type).Nodup

/-- A sequence of `updateCondition` calls, applied in order. -/
structure CondCall where
  condType : String
  status : ConditionStatus
  reason : String
  message : String
  now : Nat
deriving DecidableEq, Repr

/-- Fold a sequence of `updateCondition` calls over a conditions list. -/
def applyCondCalls (calls : List CondCall) (conds : List Condition) :
    List Condition :=
  calls.foldl
    (fun cs call =>
      updateCondition cs call.condType call.status call.reason call.message
        call.now)
    conds

theorem findCond_cons_of_type_eq (x : Condition) (rest : List Condition)
    (t : String) (ht : x.type = t) : findCond (x :: rest) t = some x := by
  rw [findCond, List.find?_cons_of_pos]
  simpa using ht

theorem findCond_cons_of_type_ne (x : Condition) (rest : List Condition)
    (t : String) (ht : x.type ≠ t) : findCond (x :: rest) t = findCond rest t := by
  rw [findCond, List.find?_cons_of_neg, findCond]
  simpa using ht

theorem insertCond_of_not_found (conds : List Condition) (cond : Condition)
    (hf : findCond conds cond.type = none) :
    insertCond conds cond = conds ++ [cond] := by
  induction conds with
  | nil => rfl
  | cons x rest ih =>
    by_cases ht : x.type = cond.type
    · rw [findCond_cons_of_type_eq x rest cond.type ht] at hf
      exact absurd hf (by simp)
    · rw [findCond_cons_of_type_ne x rest cond.type ht] at hf
      rw [insertCond, if_neg ht, ih hf, List.cons_append]

theorem types_insertCond_of_found (conds : List Condition) (cond c : Condition)
    (hf : findCond conds cond.type = some c) :
    (insertCond conds cond).map Condition.type = conds.map Condition.type := by
  induction conds with
  | nil => simp [findCond] at hf
  | cons x rest ih =>
    by_cases ht : x.type = cond.type
    · rw [insertCond, if_pos ht, List.map_cons, List.map_cons]
      by_cases hs : x.status ≠ cond.status
      · rw [if_pos hs, ht]
      · rw [if_neg hs]
    · rw [findCond_cons_of_type_ne x rest cond.type ht] at hf
      rw [insertCond, if_neg ht, List.map_cons, List.map_cons, ih hf]

theorem not_mem_types_of_findCond_none (conds : List Condition) (t : String)
    (hf : findCond conds t = none) : t ∉ conds.map Condition.type := by
  intro hmem
  obtain ⟨c, hc, hct⟩ := List.mem_map.mp hmem
  have := List.find?_eq_none.mp hf c hc
  simp [hct] at this

theorem uniqueTypes_insertCond (conds : List Condition) (cond : Condition)
    (h : uniqueTypes conds) : uniqueTypes (insertCond conds cond) := by
  cases hf : findCond conds cond.type with
  | some c =>
    rw [uniqueTypes, types_insertCond_of_found conds cond c hf]
    exact h
  | none =>
    rw [insertCond_of_not_found conds cond hf, uniqueTypes, List.map_append]
    refine List.Nodup.append h (List.nodup_singleton _) ?_
    intro a ha hb
    rw [List.map_singleton, List.mem_singleton] at hb
    exact not_mem_types_of_findCond_none conds cond.type hf (hb ▸ ha)

theorem insertCond_same_status (conds : List Condition) (cond c : Condition)
    (hfind : findCond conds cond.type = some c) (hs : c.status = cond.status) :
    insertCond conds cond = conds := by
  induction conds with
  | nil => simp [findCond] at hfind
  | cons x rest ih =>
    by_cases ht : x.type = cond.type
    · rw [findCond_cons_of_type_eq x rest cond.type ht] at hfind
      have hx : x = c := Option.some.inj hfind
      subst hx
      rw [insertCond, if_pos ht, if_neg (by simpa using hs)]
    · rw [findCond_cons_of_type_ne x rest cond.type ht] at hfind
      rw [insertCond, if_neg ht, ih hfind]

theorem insertCond_diff_status (conds : List Condition) (cond c : Condition)
    (hfind : findCond conds cond.type = some c) (hs : c.status ≠ cond.status) :
    findCond (insertCond conds cond) cond.type = some cond := by
  induction conds with
  | nil => simp [findCond] at hfind
  | cons x rest ih =>
    by_cases ht : x.type = cond.type
    · rw [findCond_cons_of_type_eq x rest cond.type ht] at hfind
      have hx : x = c := Option.some.inj hfind
      subst hx
      rw [insertCond, if_pos ht, if_pos hs]
      exact findCond_cons_of_type_eq cond rest cond.type rfl
    · rw [findCond_cons_of_type_ne x rest cond.type ht] at hfind
      rw [insertCond, if_neg ht, findCond_cons_of_type_ne x _ cond.type ht]
      exact ih hfind

theorem contains_addFinalizer (app : AppService) (f : String) :
    containsFinalizer (addFinalizer app f) f = true := by
  simp [containsFinalizer, addFinalizer]

theorem not_contains_removeFinalizer (app : AppService) (f : String) :
    containsFinalizer (removeFinalizer app f) f = false := by
  simp only [containsFinalizer, removeFinalizer]
  rw [Bool.eq_false_iff]
  intro hcon
  have hmem : f ∈ app.finalizers.filter (fun x => x != f) := by
    simp [List.elem_iff] at hcon
  exact absurd (List.of_mem_filter hmem) (by simp)

theorem statusStage_ops_mono (c : Cluster) (a : AppService) (d : Deployment)
    (now : Nat) (ops : List Op) (x : Op) (hx : x ∈ ops) :
    x ∈ (statusStage c a d now ops).2.2 := by
  simp only [statusStage]
  exact List.mem_append_left _ hx

theorem serviceStage_ops_mono (c : Cluster) (a : AppService) (d : Deployment)
    (now : Nat) (ops : List Op) (x : Op) (hx : x ∈ ops) :
    x ∈ (serviceStage c a d now ops).2.2 := by
  unfold serviceStage
  cases c.service with
  | none => exact List.mem_append_left _ hx
  | some svc =>
    exact statusStage_ops_mono _ _ _ _ _ _ (List.mem_append_left _ hx)

theorem deploymentStage_ops_mono (c : Cluster) (a : AppService) (now : Nat)
    (ops : List Op) (x : Op) (hx : x ∈ ops) :
    x ∈ (deploymentStage c a now ops).2.2 := by
  cases hd : c.deployment with
  | none =>
    simp only [deploymentStage, hd]
    exact List.mem_append_left _ hx
  | some d =>
    by_cases hr : d.spec.replicas ≠ a.spec.replicas
    · simp only [deploymentStage, hd, if_pos hr]
      exact List.mem_append_left _ hx
    · simp only [deploymentStage, hd, if_neg hr]
      exact serviceStage_ops_mono _ _ _ _ _ _ (List.mem_append_left _ hx)

theorem deploymentStage_fetches_deployment (c : Cluster) (a : AppService)
    (now : Nat) (ops : List Op) :
    Op.getDeployment ∈ (deploymentStage c a now ops).2.2 := by
  cases hd : c.deployment with
  | none =>
    simp only [deploymentStage, hd]
    exact List.mem_append_right _ (by simp)
  | some d =>
    by_cases hr : d.spec.replicas ≠ a.spec.replicas
    · simp only [deploymentStage, hd, if_pos hr]
      exact List.mem_append_right _ (by simp)
    · simp only [deploymentStage, hd, if_neg hr]
      exact serviceStage_ops_mono _ _ _ _ _ _
        (List.mem_append_right _ (by simp))

theorem statusStage_phase (c : Cluster) (a : AppService) (d : Deployment)
    (now : Nat) (ops : List Op) (a' : AppService)
    (h : (statusStage c a d now ops).1.appService = some a') :
    a'.status.phase = "Running" ∨ a'.status.phase = "Pending" := by
  simp only [statusStage] at h
  split at h
  · left
    cases Option.some.inj h
    rfl
  · right
    cases Option.some.inj h
    rfl

theorem serviceStage_appService (c : Cluster) (a : AppService) (d : Deployment)
    (now : Nat) (ops : List Op) (a' : AppService)
    (h : (serviceStage c a d now ops).1.appService = some a') :
    c.appService = some a' ∨
      a'.status.phase = "Running" ∨ a'.status.phase = "Pending" := by
  unfold serviceStage at h
  cases hs : c.service with
  | none =>
    rw [hs] at h
    exact Or.inl h
  | some svc =>
    rw [hs] at h
    exact Or.inr (statusStage_phase _ _ _ _ _ _ h)

theorem deploymentStage_appService (c : Cluster) (a : AppService) (now : Nat)
    (ops : List Op) (a' : AppService)
    (h : (deploymentStage c a now ops).1.appService = some a') :
    c.appService = some a' ∨
      a'.status.phase = "Running" ∨ a'.status.phase = "Pending" := by
  unfold deploymentStage at h
  cases hd : c.deployment with
  | none =>
    rw [hd] at h
    exact Or.inl h
  | some d =>
    rw [hd] at h
    by_cases hr : d.spec.replicas ≠ a.spec.replicas
    · simp only [if_pos hr] at h
      exact Or.inl h
    · simp only [if_neg hr] at h
      exact serviceStage_appService _ _ _ _ _ _ h

theorem findCond_insertCond_status (conds : List Condition)
    (cond : Condition) :
    ∃ cd, findCond (insertCond conds cond) cond.type = some cd ∧
      cd.status = cond.status := by
  induction conds with
  | nil =>
    exact ⟨cond, findCond_cons_of_type_eq cond [] cond.type rfl, rfl⟩
  | cons x rest ih =>
    by_cases ht : x.type = cond.type
    · by_cases hs : x.status ≠ cond.status
      · refine ⟨cond, ?_, rfl⟩
        rw [insertCond, if_pos ht, if_pos hs]
        exact findCond_cons_of_type_eq cond rest cond.type rfl
      · push_neg at hs
        refine ⟨x, ?_, hs⟩
        rw [insertCond, if_pos ht, if_neg (by simpa using hs)]
        exact findCond_cons_of_type_eq x rest cond.type ht
    · obtain ⟨cd, hcd, hst⟩ := ih
      refine ⟨cd, ?_, hst⟩
      rw [insertCond, if_neg ht, findCond_cons_of_type_ne x _ cond.type ht]
      exact hcd

/-! ## Observations on a reconcile pass -/

/-- Phase of the record left in the store by a pass. -/
def resultPhase (res : Cluster × CtrlResult × List Op) : Option String :=
  res.1.appService.map (fun a => a.status.phase)

/-- Status of the `"Ready"` condition of the record left in the store. -/
def resultReadyStatus (res : Cluster × CtrlResult × List Op) :
    Option (Option ConditionStatus) :=
  res.1.appService.map
    (fun a => (findCond a.status.conditions "Ready").map Condition.status)

theorem uniqueTypes_applyCondCalls (calls : List CondCall)
    (conds : List Condition) (h : uniqueTypes conds) :
    uniqueTypes (applyCondCalls calls conds) := by
  induction calls generalizing conds with
  | nil => exact h
  | cons call rest ih => exact ih _ (uniqueTypes_insertCond _ _ h)

theorem Reconcile_phase_cases (c : Cluster) (app : AppService) (now : Nat)
    (h1 : c.appService = some app) (a' : AppService)
    (h : (Reconcile c now).1.appService = some a') :
    a'.status.phase = app.status.phase ∨
      a'.status.phase = "Running" ∨ a'.status.phase = "Pending" := by
  by_cases h2 : app.deletionTimestampIsZero = true
  · by_cases h3 : containsFinalizer app finalizerName = true
    · simp only [Reconcile, h1, h2, h3, if_true] at h
      rcases deploymentStage_appService _ _ _ _ _ h with hc | hc
      · rw [h1] at hc
        cases Option.some.inj hc
        exact Or.inl rfl
      · exact Or.inr hc
    · have h3' : containsFinalizer app finalizerName = false := by
        simpa using h3
      simp only [Reconcile, h1, h2, h3', Bool.false_eq_true, if_false,
        if_true] at h
      rcases deploymentStage_appService _ _ _ _ _ h with hc | hc
      · have hc' : addFinalizer app finalizerName = a' := Option.some.inj hc
        exact Or.inl (hc' ▸ rfl)
      · exact Or.inr hc
  · have h2' : app.deletionTimestampIsZero = false := by simpa using h2
    by_cases h3 : containsFinalizer app finalizerName = true
    · simp only [Reconcile, h1, h2', Bool.false_eq_true, if_false, h3,
        if_true] at h
      have hc' : removeFinalizer app finalizerName = a' := Option.some.inj h
      exact Or.inl (hc' ▸ rfl)
    · have h3' : containsFinalizer app finalizerName = false := by
        simpa using h3
      simp only [Reconcile, h1, h2', h3', Bool.false_eq_true, if_false] at h
      cases Option.some.inj h
      exact Or.inl rfl

/-! ## C1: finalizer ensure branch -/

/-- A found, non-deleting record lacking the finalizer, with no dependents yet. -/
def appC1 : AppService :=
  { name := "a", namespaceName := "n",
    spec := { replicas := 3, image := "img:1", port := 80 } }

/-- Store holding only `appC1`. -/
def clusterC1 : Cluster :=
  { appService := some appC1, deployment := none, service := none }

/-- C1 counterexample: on a found, non-deleting record without the finalizer,
the same pass that adds and persists the finalizer also fetches the workload
and even creates it — contradicting "returns Done with immediate retry without
proceeding further in that same pass (no dependent-resource fetch, create,
... occurs before the next pass)". -/
theorem C1_counterexample :
    containsFinalizer appC1 finalizerName = false ∧
    Op.getDeployment ∈ (Reconcile clusterC1 0).2.2 ∧
    Op.createDeployment (deploymentForAppService (addFinalizer appC1 finalizerName)) ∈
      (Reconcile clusterC1 0).2.2 := by
  decide

/-- C1 (amended): for every reconcile pass on a found, non-deleting record
that lacks the finalizer marker, the pass adds the finalizer and persists the
record, and then continues in the same pass to the dependent-resource steps
(the workload fetch occurs in the same pass; there is no early return). -/
theorem C1_finalizer_added_then_pass_continues (c : Cluster) (app : AppService)
    (now : Nat) (h1 : c.appService = some app)
    (h2 : app.deletionTimestampIsZero = true)
    (h3 : containsFinalizer app finalizerName = false) :
    containsFinalizer (addFinalizer app finalizerName) finalizerName = true ∧
    Op.updateAppService (addFinalizer app finalizerName) ∈ (Reconcile c now).2.2 ∧
    Op.getDeployment ∈ (Reconcile c now).2.2 := by
  refine ⟨contains_addFinalizer app finalizerName, ?_, ?_⟩
  · simp only [Reconcile, h1, h2, if_true, h3, Bool.false_eq_true, if_false]
    exact deploymentStage_ops_mono _ _ _ _ _ (by simp)
  · simp only [Reconcile, h1, h2, if_true, h3, Bool.false_eq_true, if_false]
    exact deploymentStage_fetches_deployment _ _ _ _

/-- C1 witness: the amended statement evaluated on `clusterC1`. -/
theorem C1_finalizer_added_then_pass_continues_witness :
    containsFinalizer appC1 finalizerName = false ∧
    (containsFinalizer (addFinalizer appC1 finalizerName) finalizerName = true ∧
     Op.updateAppService (addFinalizer appC1 finalizerName) ∈ (Reconcile clusterC1 0).2.2 ∧
     Op.getDeployment ∈ (Reconcile clusterC1 0).2.2) :=
  ⟨by decide, C1_finalizer_added_then_pass_continues clusterC1 appC1 0 rfl rfl (by decide)⟩

/-! ## C2: status step when available replicas match -/

/-- A converged record: finalizer present, workload and endpoint exist,
workload reports all three replicas available. -/
def appC2 : AppService :=
  { name := "a", namespaceName := "n", finalizers := ["example.com/finalizer"],
    spec := { replicas := 3, image := "img:1", port := 80 } }

/-- The workload for `appC2` with three available replicas. -/
def depC2 : Deployment :=
  { name := "a", namespaceName := "n",
    spec := { replicas := 3, selectorMatchLabels := [("app", "a")],
              template := { labels := [("app", "a")], containers := [] } },
    status := { availableReplicas := 3 } }

/-- The endpoint for `appC2`. -/
def svcC2 : Service :=
  { name := "a", namespaceName := "n", selector := [("app", "a")],
    ports := [{ port := 80, targetPort := 80 }], type := "ClusterIP" }

/-- Store for the C2 scenario. -/
def clusterC2 : Cluster :=
  { appService := some appC2, deployment := some depC2, service := some svcC2 }

/-- C2 counterexample: with `availableReplicas` equal to the desired replica
count, the pass sets `status.phase` to `"Running"`, not `"Ready"`. -/
theorem C2_counterexample :
    resultPhase (Reconcile clusterC2 5) = some "Running" ∧
    "Running" ≠ "Ready" := by
  decide

/-- C2 (amended): for every reconcile pass that reaches the status-update step
with the workload's available replica count equal to the record's desired
replica count, the pass sets `status.phase` to `"Running"` (the code's name
for the ready phase) and sets the `"Ready"` condition to True. -/
theorem C2_available_matches_sets_running_ready (c : Cluster)
    (app : AppService) (dep : Deployment) (svc : Service) (now : Nat)
    (h1 : c.appService = some app) (h2 : app.deletionTimestampIsZero = true)
    (h3 : containsFinalizer app finalizerName = true)
    (h4 : c.deployment = some dep)
    (h5 : dep.spec.replicas = app.spec.replicas)
    (h6 : c.service = some svc)
    (h7 : dep.status.availableReplicas = app.spec.replicas) :
    resultPhase (Reconcile c now) = some "Running" ∧
    resultReadyStatus (Reconcile c now) =
      some (some ConditionStatus.ConditionTrue) := by
  have hstep : Reconcile c now =
      statusStage c app dep now
        [Op.getAppService, Op.getDeployment, Op.getService] := by
    simp only [Reconcile, h1, h2, if_true, h3]
    simp only [deploymentStage, h4]
    rw [if_neg (by simp [h5])]
    simp [serviceStage, h6]
  rw [hstep]
  obtain ⟨cd, hcd, hst⟩ :=
    findCond_insertCond_status
      (app.status.conditions)
      { type := "Ready", status := ConditionStatus.ConditionTrue,
        reason := "DeploymentReady", message := "All replicas are available",
        lastTransitionTime := now }
  constructor
  · simp only [statusStage, resultPhase, if_pos h7]
    rfl
  · simp only [statusStage, resultReadyStatus, if_pos h7, Option.map_some']
    rw [show (findCond
        (updateCondition app.status.conditions "Ready"
          ConditionStatus.ConditionTrue "DeploymentReady"
          "All replicas are available" now) "Ready") = some cd from hcd]
    simp [hst]

/-- C2 witness: the amended statement evaluated on `clusterC2`. -/
theorem C2_available_matches_sets_running_ready_witness :
    depC2.status.availableReplicas = appC2.spec.replicas ∧
    (resultPhase (Reconcile clusterC2 5) = some "Running" ∧
     resultReadyStatus (Reconcile clusterC2 5) =
       some (some ConditionStatus.ConditionTrue)) :=
  ⟨by decide, C2_available_matches_sets_running_ready clusterC2 appC2 depC2
    svcC2 5 rfl rfl (by decide) rfl rfl rfl rfl⟩

/-! ## C3: invalid desired state -/

/-- A record with invalid desired state: negative replica count and a port
outside 1..65535. Finalizer present, dependents exist. -/
def appC3 : AppService :=
  { name := "a", namespaceName := "n", finalizers := ["example.com/finalizer"],
    spec := { replicas := -1, image := "img:1", port := 99999 } }

/-- The workload matching `appC3`'s (invalid) replica count, none available. -/
def depC3 : Deployment :=
  { name := "a", namespaceName := "n",
    spec := { replicas := -1, selectorMatchLabels := [("app", "a")],
              template := { labels := [("app", "a")], containers := [] } },
    status := { availableReplicas := 0 } }

/-- The endpoint for `appC3`. -/
def svcC3 : Service :=
  { name := "a", namespaceName := "n", selector := [("app", "a")],
    ports := [{ port := 99999, targetPort := 99999 }], type := "ClusterIP" }

/-- Store for the C3 scenario. -/
def clusterC3 : Cluster :=
  { appService := some appC3, deployment := some depC3, service := some svcC3 }

/-- C3 counterexample: the reconcile pass performs no validation — on a record
with a negative replica count and an out-of-range port it completes the normal
status step and writes phase `"Pending"`; no `"Failed"` phase surfaces the
problem. -/
theorem C3_counterexample :
    appC3.spec.replicas < 0 ∧ 65535 < appC3.spec.port ∧
    resultPhase (Reconcile clusterC3 3) = some "Pending" ∧
    "Pending" ≠ "Failed" := by
  decide

/-- C3 (amended): the code validates nothing. A reconcile pass on a record
with invalid desired state (negative replica count or out-of-range port)
proceeds exactly as for a valid record and never surfaces a `"Failed"` phase:
if the record's phase was not `"Failed"` before the pass, it is not `"Failed"`
after it (the status step only ever writes `"Running"` or `"Pending"`). Under
the total store model the pass also returns no error. -/
theorem C3_no_validation_no_failed_phase (c : Cluster) (app : AppService)
    (now : Nat) (h1 : c.appService = some app)
    (hinv : app.spec.replicas < 0 ∨ app.spec.port < 1 ∨ 65535 < app.spec.port)
    (hph : app.status.phase ≠ "Failed") :
    resultPhase (Reconcile c now) ≠ some "Failed" := by
  intro hcon
  unfold resultPhase at hcon
  cases hres : (Reconcile c now).1.appService with
  | none => rw [hres] at hcon; simp at hcon
  | some a' =>
    rw [hres] at hcon
    have hph' : a'.status.phase = "Failed" := by simpa using hcon
    rcases Reconcile_phase_cases c app now h1 a' hres with hc | hc | hc
    · exact hph (hc.symm.trans hph')
    · exact absurd (hc.symm.trans hph') (by decide)
    · exact absurd (hc.symm.trans hph') (by decide)

/-- C3 witness: the amended statement evaluated on `clusterC3`. -/
theorem C3_no_validation_no_failed_phase_witness :
    (appC3.spec.replicas < 0 ∨ appC3.spec.port < 1 ∨ 65535 < appC3.spec.port) ∧
    appC3.status.phase ≠ "Failed" ∧
    resultPhase (Reconcile clusterC3 3) ≠ some "Failed" :=
  ⟨by decide, by decide,
    C3_no_validation_no_failed_phase clusterC3 appC3 3 rfl (by decide) (by decide)⟩

/-! ## C5: deletion protocol -/

/-- C5: a record with deletion requested and the finalizer present is handled
in one pass: cleanup runs, the finalizer is removed, the record is persisted,
and the pass returns the zero result; the trace contains no creation, update
or deletion of a dependent resource, and the store's Deployment and Service
entries are untouched (the returned cluster differs only in the record). -/
theorem C5_deletion_single_pass (c : Cluster) (app : AppService) (now : Nat)
    (h1 : c.appService = some app)
    (h2 : app.deletionTimestampIsZero = false)
    (h3 : containsFinalizer app finalizerName = true) :
    Reconcile c now =
      ({ c with appService := some (removeFinalizer app finalizerName) },
        { requeue := false, requeueAfter := 0 },
        [Op.getAppService, Op.cleanupResources,
          Op.updateAppService (removeFinalizer app finalizerName)]) ∧
    containsFinalizer (removeFinalizer app finalizerName) finalizerName =
      false := by
  refine ⟨?_, not_contains_removeFinalizer app finalizerName⟩
  simp [Reconcile, h1, h2, h3]

/-- A record being deleted with the finalizer present, dependents existing. -/
def appC5 : AppService :=
  { name := "a", namespaceName := "n", deletionTimestampIsZero := false,
    finalizers := ["example.com/finalizer"],
    spec := { replicas := 3, image := "img:1", port := 80 } }

/-- The workload accompanying `appC5`. -/
def depC5 : Deployment :=
  { name := "a", namespaceName := "n",
    spec := { replicas := 3, selectorMatchLabels := [("app", "a")],
              template := { labels := [("app", "a")], containers := [] } } }

/-- Store for the C5 scenario. -/
def clusterC5 : Cluster :=
  { appService := some appC5, deployment := some depC5, service := none }

/-- C5 witness: the deletion pass evaluated on `clusterC5`. -/
theorem C5_deletion_single_pass_witness :
    Reconcile clusterC5 0 =
      ({ clusterC5 with
          appService := some (removeFinalizer appC5 finalizerName) },
        { requeue := false, requeueAfter := 0 },
        [Op.getAppService, Op.cleanupResources,
          Op.updateAppService (removeFinalizer appC5 finalizerName)]) ∧
    containsFinalizer (removeFinalizer appC5 finalizerName) finalizerName =
      false :=
  C5_deletion_single_pass clusterC5 appC5 0 rfl rfl (by decide)

/-! ## C7: replica patch leaves the endpoint untouched -/

/-- The write the replica-differs branch issues: the existing Deployment with
only its replica field replaced. -/
def patchReplicas (dep : Deployment) (n : Int) : Deployment :=
  { dep with spec := { dep.spec with replicas := n } }

/-- C7: when the workload exists and its replica count differs from the
record's, the pass writes back the workload with only the replica field
changed (all other fields equal), returns requeue-immediately, and neither
reads nor writes the Service: the trace is exactly the record fetch, the
workload fetch, and the workload update. -/
theorem C7_replica_patch_frame (c : Cluster) (app : AppService)
    (dep : Deployment) (now : Nat)
    (h1 : c.appService = some app) (h2 : app.deletionTimestampIsZero = true)
    (h3 : containsFinalizer app finalizerName = true)
    (h4 : c.deployment = some dep)
    (h5 : dep.spec.replicas ≠ app.spec.replicas) :
    Reconcile c now =
      ({ c with deployment := some (patchReplicas dep app.spec.replicas) },
        { requeue := true, requeueAfter := 0 },
        [Op.getAppService, Op.getDeployment,
          Op.updateDeployment (patchReplicas dep app.spec.replicas)]) ∧
    (Reconcile c now).1.service = c.service ∧
    Op.getService ∉ (Reconcile c now).2.2 := by
  have hmain : Reconcile c now =
      ({ c with deployment := some (patchReplicas dep app.spec.replicas) },
        { requeue := true, requeueAfter := 0 },
        [Op.getAppService, Op.getDeployment,
          Op.updateDeployment (patchReplicas dep app.spec.replicas)]) := by
    simp only [Reconcile, h1, h2, if_true, h3]
    simp only [deploymentStage, h4, if_pos h5]
    simp [patchReplicas, h1]
  refine ⟨hmain, ?_, ?_⟩
  · rw [hmain]
  · rw [hmain]
    simp

/-- A ready record whose replica count was changed from 3 to 5; workload and
endpoint both exist with the old count. -/
def appC7 : AppService :=
  { name := "a", namespaceName := "n", finalizers := ["example.com/finalizer"],
    spec := { replicas := 5, image := "img:1", port := 80 },
    status := { phase := "Running" } }

/-- The existing workload still at 3 replicas. -/
def depC7 : Deployment :=
  { name := "a", namespaceName := "n",
    spec := { replicas := 3, selectorMatchLabels := [("app", "a")],
              template := { labels := [("app", "a")], containers := [] } },
    status := { availableReplicas := 3 } }

/-- The existing endpoint. -/
def svcC7 : Service :=
  { name := "a", namespaceName := "n", selector := [("app", "a")],
    ports := [{ port := 80, targetPort := 80 }], type := "ClusterIP" }

/-- Store for the C7 scenario. -/
def clusterC7 : Cluster :=
  { appService := some appC7, deployment := some depC7, service := some svcC7 }

/-- C7 witness: the replica-patch pass evaluated on `clusterC7`. -/
theorem C7_replica_patch_frame_witness :
    Reconcile clusterC7 9 =
      ({ clusterC7 with
          deployment := some (patchReplicas depC7 appC7.spec.replicas) },
        { requeue := true, requeueAfter := 0 },
        [Op.getAppService, Op.getDeployment,
          Op.updateDeployment (patchReplicas depC7 appC7.spec.replicas)]) ∧
    (Reconcile clusterC7 9).1.service = clusterC7.service ∧
    Op.getService ∉ (Reconcile clusterC7 9).2.2 :=
  C7_replica_patch_frame clusterC7 appC7 depC7 9 rfl rfl (by decide) rfl
    (by decide)

/-! ## C4: condition de-duplication and transition-time discipline -/

/-- C4: (a) any sequence of `updateCondition` calls starting from an empty
conditions list keeps at most one condition per type; (b) one call preserves
type-uniqueness; (c) if the found condition already has the new status the
whole list is unchanged, so its transition time does not move; (d) if the
status differs, the condition of that type afterwards is the freshly stamped
one, and its transition time differs from the previous one (assuming the
clock moved, `hnow`). -/
theorem C4_condition_dedup_transition (calls : List CondCall)
    (conds : List Condition) (t : String) (st : ConditionStatus)
    (r m : String) (now : Nat) (c : Condition)
    (hfind : findCond conds t = some c)
    (hnow : c.lastTransitionTime ≠ now) :
    uniqueTypes (applyCondCalls calls []) ∧
    (uniqueTypes conds → uniqueTypes (updateCondition conds t st r m now)) ∧
    (c.status = st → updateCondition conds t st r m now = conds) ∧
    (c.status ≠ st →
      findCond (updateCondition conds t st r m now) t =
        some { type := t, status := st, reason := r, message := m,
               lastTransitionTime := now } ∧
      (findCond (updateCondition conds t st r m now) t).map
          Condition.lastTransitionTime ≠ some c.lastTransitionTime) := by
  refine ⟨uniqueTypes_applyCondCalls calls [] (by simp [uniqueTypes]),
    fun hu => uniqueTypes_insertCond conds _ hu,
    fun hs => insertCond_same_status conds _ c hfind hs,
    fun hs => ?_⟩
  have hf :
      findCond (updateCondition conds t st r m now) t =
        some { type := t, status := st, reason := r, message := m,
               lastTransitionTime := now } :=
    insertCond_diff_status conds _ c hfind hs
  refine ⟨hf, ?_⟩
  rw [hf]
  intro hcon
  exact hnow (Option.some.inj hcon).symm

/-- The pre-existing `"Ready"` condition used by the C4 witness. -/
def condC4 : Condition :=
  { type := "Ready", status := ConditionStatus.ConditionFalse,
    reason := "r0", message := "m0", lastTransitionTime := 0 }

/-- The call sequence used by the C4 witness. -/
def callsC4 : List CondCall :=
  [{ condType := "Ready", status := ConditionStatus.ConditionTrue,
     reason := "r", message := "m", now := 1 },
   { condType := "Ready", status := ConditionStatus.ConditionTrue,
     reason := "r2", message := "m2", now := 2 }]

/-- C4 witness: a `"Ready"` condition flipping from False to True at a later
time, plus a repeated call sequence starting from nothing. -/
theorem C4_condition_dedup_transition_witness :
    findCond [condC4] "Ready" = some condC4 ∧
    condC4.lastTransitionTime ≠ 1 ∧
    (uniqueTypes (applyCondCalls callsC4 []) ∧
     (uniqueTypes [condC4] →
       uniqueTypes (updateCondition [condC4] "Ready"
         ConditionStatus.ConditionTrue "r" "m" 1)) ∧
     (condC4.status = ConditionStatus.ConditionTrue →
       updateCondition [condC4] "Ready" ConditionStatus.ConditionTrue
         "r" "m" 1 = [condC4]) ∧
     (condC4.status ≠ ConditionStatus.ConditionTrue →
       findCond (updateCondition [condC4] "Ready"
           ConditionStatus.ConditionTrue "r" "m" 1) "Ready" =
         some { type := "Ready", status := ConditionStatus.ConditionTrue,
                reason := "r", message := "m", lastTransitionTime := 1 } ∧
       (findCond (updateCondition [condC4] "Ready"
           ConditionStatus.ConditionTrue "r" "m" 1) "Ready").map
           Condition.lastTransitionTime ≠
         some condC4.lastTransitionTime)) :=
  ⟨by decide, by decide,
    C4_condition_dedup_transition callsC4 [condC4] "Ready"
      ConditionStatus.ConditionTrue "r" "m" 1 condC4 (by decide) (by decide)⟩

/-! ## C10: same-status call leaves the conditions untouched -/

/-- C10: when a condition of the given type exists and already has the new
status, `updateCondition` returns the conditions list unchanged — reason and
message are not refreshed and no condition is modified. -/
theorem C10_same_status_noop (conds : List Condition) (t : String)
    (st : ConditionStatus) (r m : String) (now : Nat) (c : Condition)
    (hfind : findCond conds t = some c) (hs : c.status = st) :
    updateCondition conds t st r m now = conds :=
  insertCond_same_status conds _ c hfind hs

/-- C10 witness: a same-status call with fresh reason, message and time leaves
the list exactly as it was. -/
theorem C10_same_status_noop_witness :
    updateCondition
        [{ type := "Ready", status := ConditionStatus.ConditionTrue,
           reason := "oldReason", message := "oldMessage",
           lastTransitionTime := 4 },
         { type := "Synced", status := ConditionStatus.ConditionFalse,
           reason := "s", message := "t", lastTransitionTime := 2 }]
        "Ready" ConditionStatus.ConditionTrue "newReason" "newMessage" 9 =
      [{ type := "Ready", status := ConditionStatus.ConditionTrue,
         reason := "oldReason", message := "oldMessage",
         lastTransitionTime := 4 },
       { type := "Synced", status := ConditionStatus.ConditionFalse,
         reason := "s", message := "t", lastTransitionTime := 2 }] :=
  C10_same_status_noop _ "Ready" ConditionStatus.ConditionTrue "newReason"
    "newMessage" 9
    { type := "Ready", status := ConditionStatus.ConditionTrue,
      reason := "oldReason", message := "oldMessage",
      lastTransitionTime := 4 }
    (by decide) rfl

/-! ## C6: CreateOrUpdate read-modify-write -/

/-- C6: `CreateOrUpdate` fetches the existing object by key first. If the
fetch reports not-found the new object is created. If an object exists, the
update is issued with the existing object's resource version carried onto the
new object; consequently, when the store's content at write time carries a
version stamp different from the one read (a concurrent writer intervened),
the update is rejected with a conflict error instead of overwriting. -/
theorem C6_createOrUpdate_rmw (sRead sWrite : List StoredObject)
    (obj : StoredObject) :
    CreateOrUpdate sRead obj = CreateOrUpdateRace sRead sRead obj ∧
    (storeGet sRead obj.key = Except.error K8sError.notFound →
      CreateOrUpdateRace sRead sWrite obj = storeCreate sWrite obj) ∧
    (∀ existing, storeGet sRead obj.key = Except.ok existing →
      CreateOrUpdateRace sRead sWrite obj =
        storeUpdate sWrite
          { obj with resourceVersion := existing.resourceVersion }) ∧
    (∀ existing current, storeGet sRead obj.key = Except.ok existing →
      sWrite.find? (fun e => e.key == obj.key) = some current →
      current.resourceVersion ≠ existing.resourceVersion →
      CreateOrUpdateRace sRead sWrite obj =
        Except.error K8sError.conflict) := by
  refine ⟨rfl, ?_, ?_, ?_⟩
  · intro h
    simp [CreateOrUpdateRace, h, IsNotFound]
  · intro existing h
    simp [CreateOrUpdateRace, h]
  · intro existing current h hcur hne
    simp only [CreateOrUpdateRace, h, storeUpdate, hcur]
    rw [if_neg hne]

/-- Store contents read at the start of the C6 witness scenario. -/
def sReadC6 : List StoredObject :=
  [{ key := "k", resourceVersion := 5, payload := "old" }]

/-- Store contents at write time: a concurrent writer bumped the version. -/
def sWriteC6 : List StoredObject :=
  [{ key := "k", resourceVersion := 6, payload := "concurrent" }]

/-- The object the reconciler wants to write. -/
def objC6 : StoredObject :=
  { key := "k", resourceVersion := 0, payload := "mine" }

/-- C6 witness: the read-modify-write properties evaluated on a store where a
concurrent writer intervened between read and write. -/
theorem C6_createOrUpdate_rmw_witness :
    CreateOrUpdate sReadC6 objC6 = CreateOrUpdateRace sReadC6 sReadC6 objC6 ∧
    (storeGet sReadC6 objC6.key = Except.error K8sError.notFound →
      CreateOrUpdateRace sReadC6 sWriteC6 objC6 = storeCreate sWriteC6 objC6) ∧
    (∀ existing, storeGet sReadC6 objC6.key = Except.ok existing →
      CreateOrUpdateRace sReadC6 sWriteC6 objC6 =
        storeUpdate sWriteC6
          { objC6 with resourceVersion := existing.resourceVersion }) ∧
    (∀ existing current, storeGet sReadC6 objC6.key = Except.ok existing →
      sWriteC6.find? (fun e => e.key == objC6.key) = some current →
      current.resourceVersion ≠ existing.resourceVersion →
      CreateOrUpdateRace sReadC6 sWriteC6 objC6 =
        Except.error K8sError.conflict) :=
  C6_createOrUpdate_rmw sReadC6 sWriteC6 objC6

/-! ## C8: GetObject hides not-found -/

/-- C8: `GetObject` returns a nil error both when the key is present and when
the store reports not-found; the caller's object is overwritten with the
fetched value when present and left untouched when absent, so the error value
alone never distinguishes the two cases. -/
theorem C8_getObject_notfound_is_nil (α : Type) (s : List (String × α))
    (k : String) (obj : α) :
    (GetObject s k obj).1 = none ∧
    (GetObject s k obj).2 = (lookupStore s k).getD obj := by
  cases hls : lookupStore s k with
  | none => simp [GetObject, clientGet, hls, IsNotFound]
  | some v => simp [GetObject, clientGet, hls]

/-! ## C9: resource hints are dropped -/

/-- C9: the synthesized workload has exactly one container; its resources
field is an empty requests/limits object when at least one of the cpu/memory
hints is non-empty, and is unset when both hints are empty — the hint values
themselves are never copied. -/
theorem C9_resource_hints_not_copied (app : AppService) :
    (deploymentForAppService app).spec.template.containers.map
        Container.resources =
      [if app.spec.resources.cpu != "" || app.spec.resources.memory != ""
       then some { requests := [], limits := [] }
       else none] := by
  cases hres : (app.spec.resources.cpu != "" || app.spec.resources.memory != "") with
  | true =>
    by_cases henv : app.spec.environment.length > 0
    · simp [deploymentForAppService, hres, henv]
    · simp [deploymentForAppService, hres, henv]
  | false =>
    by_cases henv : app.spec.environment.length > 0
    · simp [deploymentForAppService, hres, henv]
    · simp [deploymentForAppService, hres, henv]
